import Mathlib

/-!
Shallow embedding of the time-series extraction core of
napari-time-series-plotter (src/napari_time_series_plotter/utils.py and
models.py), together with theorems settling the specification claims.

Arrays are embedded as list-shaped data: an image layer carries its shape
(a list of axis lengths) and a total value function from index tuples to
rationals; numpy floats are modelled as rationals.
-/

attribute [local semireducible] Rat.mul Rat.inv Rat.add Rat.sub Rat.ofScientific

namespace NTSP

/-- Rounding as performed by numpy's `np.round` on a scalar: round half to
even (banker's rounding).  `tuple(map(int, np.round(...)))` in
`extract_voxel_time_series` produces integers this way (the `int()` cast is
exact because the value is already integral). -/
def npRound (q : ℚ) : ℤ :=
  let f : ℤ := Int.floor q
  let r : ℚ := q - f
  if r < 1/2 then f
  else if 1/2 < r then f + 1
  else if f % 2 = 0 then f else f + 1

/-- Embedding of a napari image layer: `shape` is `layer.data.shape`,
`data` the array's value at an index tuple, and `worldToData` the layer's
`world_to_data` coordinate transform (world space to layer/data space). -/
structure Layer where
  shape : List ℕ
  data : List ℕ → ℚ
  worldToData : List ℚ → List ℚ

/-- Embedding of `utils.add_index_dim(arr1d, scale)`: returns the 2 × N
array as a pair of rows, row 0 the scaled index values
`np.arange(0, arr1d.size, 1) * scale`, row 1 the input values. -/
def add_index_dim (arr1d : List ℚ) (scale : ℚ) : List ℚ × List ℚ :=
  ((List.range arr1d.length).map (fun i => (i : ℚ) * scale), arr1d)

/-- Bounds check of `extract_voxel_time_series`:
`all([0 <= i < max_i for i, max_i in zip(ind, data.shape)])`
(python `zip` truncates to the shorter sequence, as does `List.zip`). -/
def npInBounds (ind : List ℤ) (shape : List ℕ) : Bool :=
  (ind.zip shape).all fun p => decide (0 ≤ p.1) && decide (p.1 < (p.2 : ℤ))

/-- Time series `data[(slice(None),) + ind[1:]]` of a layer at index `ind`:
the values along axis 0 (length `shape[0]`) at the spatial position
`ind[1:]`.  The guard `npInBounds` of the caller guarantees the components
are nonnegative, so the `Int.toNat` casts are exact there. -/
def voxelSeries (layer : Layer) (ind : List ℤ) : List ℚ :=
  (List.range (layer.shape.headD 0)).map fun t =>
    layer.data (t :: ind.tail.map Int.toNat)

/-- Embedding of `utils.extract_voxel_time_series(cpos, layer, xscale)`:
the cursor position is mapped through `layer.world_to_data` and rounded to
an integer index `ind`; if `ind` is inside the array the series along
axis 0 at `ind[1:]` is returned (wrapped by `add_index_dim`), otherwise
`None`.  The index is returned in both cases. -/
def extract_voxel_time_series (cpos : List ℚ) (layer : Layer) (xscale : ℚ) :
    List ℤ × Option (List ℚ × List ℚ) :=
  let ind := (layer.worldToData cpos).map npRound
  if npInBounds ind layer.shape then
    (ind, some (add_index_dim (voxelSeries layer ind) xscale))
  else
    (ind, none)

/-- Embedding of the cursor mapping of
`LayerSelectionModel._mouse_move_callback`:
`np.floor(viewer.cursor.position).astype(int)`. -/
def mouse_move_cpos (pos : List ℚ) : List ℤ :=
  pos.map Int.floor

/-- Concrete layer of the spec's voxel-extraction example: a
(10, 10, 10, 10) array with the marker sequence `range(10)` written at
`[:, 7, 3, 1]`, zero elsewhere, spatial transform the identity. -/
def markerLayer : Layer where
  shape := [10, 10, 10, 10]
  data := fun idx =>
    match idx with
    | [t, 7, 3, 1] => (t : ℚ)
    | _ => 0
  worldToData := id

/-! ### ROI extraction (`utils.extract_ROI_time_series`) -/

/-- The 2-D boolean mask `labels == (idx_shape + 1)`. -/
def labelMask (labels : List (List ℕ)) (idx_shape : ℕ) : List (List Bool) :=
  labels.map fun row => row.map fun l => decide (l = idx_shape + 1)

/-- Values of a 2-D array selected by a 2-D boolean mask, in C (row-major)
order: `frame[mask]` for matching shapes. -/
def boolSelect2 (frame : List (List ℚ)) (mask : List (List Bool)) : List ℚ :=
  ((frame.zip mask).map fun p =>
    (p.1.zip p.2).filterMap fun q => if q.2 then some q.1 else none).flatten

/-- Row-major boolean-mask selection on a 3-D array. -/
def boolSelect3 (a : List (List (List ℚ))) (m : List (List (List Bool))) :
    List ℚ :=
  ((a.zip m).map fun p => boolSelect2 p.1 p.2).flatten

/-- Row-major boolean-mask selection on a 4-D array. -/
def boolSelect4 (a : List (List (List (List ℚ))))
    (m : List (List (List (List Bool)))) : List ℚ :=
  ((a.zip m).map fun p => boolSelect3 p.1 p.2).flatten

/-- Test `mask.any()` on a 2-D boolean array. -/
def maskAny2 (m : List (List Bool)) : Bool := m.any fun row => row.any id

/-- Test `mask.any()` on a 3-D boolean array. -/
def maskAny3 (m : List (List (List Bool))) : Bool := m.any maskAny2

/-- Test `mask.any()` on a 4-D boolean array. -/
def maskAny4 (m : List (List (List (List Bool)))) : Bool := m.any maskAny3

/-- Reshape of a row-major flattening into `t` rows (`arr.reshape(t, n)`):
row `i` holds the elements with flat positions `[i*n, (i+1)*n)`. -/
def reshapeRows (t n : ℕ) (l : List ℚ) : List (List ℚ) :=
  (List.range t).map fun i => (l.drop (i * n)).take n

/-- An all-`False` grid (`np.zeros((rows, cols), dtype=bool)`). -/
def falseGrid (rows cols : ℕ) : List (List Bool) :=
  List.replicate rows (List.replicate cols false)

/-- The 3-D mask of the 3-D branch:
`np.tile(labels == (idx_shape + 1), (dshape[0], 1, 1))`. -/
def tileMask3 (t : ℕ) (m : List (List Bool)) : List (List (List Bool)) :=
  List.replicate t m

/-- The slice `raw_mask[0]` of the nD branch: boolean zeros of shape
`dshape[1:]` with the 2-D mask written at the plane selected by the current
step (`raw_mask[0, current_step[1:-2], ...] = labels == (idx_shape + 1)`). -/
def stepMask3 (zlen rows cols : ℕ) (z : ℕ) (m : List (List Bool)) :
    List (List (List Bool)) :=
  (List.range zlen).map fun i => if i = z then m else falseGrid rows cols

/-- The data volume of an image layer, by dimensionality branch of
`extract_ROI_time_series` (`ndim == 3` versus nD, exercised at 4). -/
inductive VolData where
  | d3 (frames : List (List (List ℚ)))
  | d4 (frames : List (List (List (List ℚ))))

/-- Embedding of `utils.extract_ROI_time_series(current_step, layer, labels,
idx_shape, roi_mode, xscale)`.  The 2-D label mask is tiled across the time
axis (3-D branch) or placed at the current-step plane and repeated across
the time axis (nD branch); if the mask selects anything, the selected
voxels are reshaped to `(dshape[0], -1)` and reduced along axis 1, else the
function falls through to `None`.  `f` stands for `mode_dict[roi_mode]`:
`mode_dict` maps the six names Min/Max/Mean/Median/Sum/Std to the numpy
reducers; the reducer is taken as a function argument here (`np.std`'s
floating-point square root has no exact rational counterpart, and the
claims quantify over the reducer applied along axis 1). -/
def extract_ROI_time_series (current_step : List ℕ) (vol : VolData)
    (labels : List (List ℕ)) (idx_shape : ℕ) (f : List ℚ → ℚ) (xscale : ℚ) :
    Option (List ℚ × List ℚ) :=
  match vol with
  | .d3 frames =>
      let mask := tileMask3 frames.length (labelMask labels idx_shape)
      if maskAny3 mask then
        let flat := boolSelect3 frames mask
        some (add_index_dim
          ((reshapeRows frames.length (flat.length / frames.length) flat).map f)
          xscale)
      else none
  | .d4 frames =>
      let zlen := (frames.headD []).length
      let rows := ((frames.headD []).headD []).length
      let cols := (((frames.headD []).headD []).headD []).length
      let raw := stepMask3 zlen rows cols (current_step.getD 1 0)
        (labelMask labels idx_shape)
      let mask := List.replicate frames.length raw
      if maskAny4 mask then
        let flat := boolSelect4 frames mask
        some (add_index_dim
          ((reshapeRows frames.length (flat.length / frames.length) flat).map f)
          xscale)
      else none

/-! ### Selection registry (`models.LayerSelectionModel`) -/

/-- A `SelectionLayerItem` as far as `tsData` reads it: display name
(`Qt.DisplayRole`), check state, and the cached `_ts_data` rows
(`Qt.UserRole + 4`). -/
structure SelChild where
  name : String
  checked : Bool
  ts_data : List (List ℚ)

/-- A top-level row of the `LayerSelectionModel`: either a
`SourceLayerItem` with its `SelectionLayerItem` children, or the
`LivePlotItem` (whose display data is the fixed string `"LivePlot"`). -/
inductive ModelRow where
  | source (name : String) (checked : Bool) (children : List SelChild)
  | livePlot (ts_data : List (List ℚ))

/-- Key of one aggregated time series.  The code builds the string
`f"{source}_{selection}_{idx}"` (`Qt.UserRole + 5` data plus the series
index); the three components are kept separate here. -/
structure TSKey where
  sourceName : String
  selectionName : String
  seriesIdx : ℕ
deriving DecidableEq

/-- Entries a checked selection child contributes to `tsData`: one per row
of its cached `_ts_data`, keyed by source name, child name and row index. -/
def childEntries (sourceName : String) (c : SelChild) :
    List (TSKey × List ℚ) :=
  c.ts_data.enum.map fun p => (⟨sourceName, c.name, p.1⟩, p.2)

/-- Embedding of the `LayerSelectionModel.tsData` property: the `LivePlot`
row always contributes its series; a source row contributes the series of
its checked children when the row itself is checked and has children
(`item.isChecked() and item.hasChildren()`); an unchecked source
contributes nothing. -/
def tsData (rows : List ModelRow) : List (TSKey × List ℚ) :=
  rows.flatMap fun row =>
    match row with
    | .livePlot ts =>
        ts.enum.map fun p => (⟨"LivePlot", "layer", p.1⟩, p.2)
    | .source n ck children =>
        if ck && !children.isEmpty then
          children.flatMap fun c => if c.checked then childEntries n c else []
        else []

/-! ### Dimensionality guard of `SelectionLayerItem.__init__` -/

/-- Embedding of the guard at models.py line 217, as written:
`if layer.ndim < layer.ndim - 1: raise ValueError(...)`.  The condition
compares `layer.ndim` with itself; `parent_ndim` (the source layer's
dimensionality named by the error message) never enters it. -/
def selectionItemGuardRaises (layer_ndim parent_ndim : ℤ) : Bool :=
  decide (layer_ndim < layer_ndim - 1)

/-- Dimensionality check prescribed by the specification for a
(source, selection) pairing: reject when the selection layer is more than
one dimension smaller than the source layer. -/
def specDimCheckRejects (layer_ndim parent_ndim : ℤ) : Bool :=
  decide (layer_ndim < parent_ndim - 1)

/-! ### Geometry-change update (`SelectionLayerItem.updateTSIndices`) -/

/-- Elementwise equality test `np.array_equal(a, b)` on index arrays. -/
def np_array_equal (a b : List (List ℤ)) : Bool := a == b

/-- Python bitwise complement applied to a boolean:
`~True == -2`, `~False == -1`. -/
def pyBitwiseNot (b : Bool) : ℤ := if b then -2 else -1

/-- Python truthiness of an integer: nonzero is true. -/
def pyTruthy (z : ℤ) : Bool := z != 0

/-- The cached state of a `SelectionLayerItem`: `_indices` and
`_ts_data`. -/
structure SelectionCache where
  indices : List (List ℤ)
  ts_data : List ℚ
deriving DecidableEq

/-- Embedding of `SelectionLayerItem.updateTSIndices`: recompute the
indices (given here as `new_indices`) and re-extract the time series data
(re-extraction result given as `extracted`) when the guard
`if ~np.array_equal(new_indices, self._indices):` fires; otherwise leave
the cache untouched. -/
def updateTSIndices (st : SelectionCache) (new_indices : List (List ℤ))
    (extracted : List ℚ) : SelectionCache :=
  if pyTruthy (pyBitwiseNot (np_array_equal new_indices st.indices)) then
    { indices := new_indices, ts_data := extracted }
  else st

/-! ### Functions of the final `utils` module absent from src/ -/

/-- Modelled from the spec: `align_value_length` is imported by models.py
from `.utils` but the final `utils` module is not under src/ (src holds an
earlier revision without it).  Per §4.5: take the maximum length over the
mapping's sequences, right-pad every shorter sequence with a NaN fill value
up to that maximum (modelled as `none`, values as `some`), pass
maximal-length sequences through unchanged, and fail with `EmptyInput` on
an empty mapping. -/
def align_value_length (d : List (String × List ℚ)) :
    Except String (List (String × List (Option ℚ))) :=
  if d.isEmpty then Except.error "EmptyInput"
  else
    let maxLen := (d.map fun kv => kv.2.length).foldr max 0
    Except.ok (d.map fun kv =>
      (kv.1, kv.2.map some ++ List.replicate (maxLen - kv.2.length) none))

/-- Modelled from the spec: `shape_to_ts_indices` is imported by models.py
from `.utils` but the final `utils` module is not under src/.  Per §4.2:
vertices (already transformed to layer space by the caller, §4.1) must
have dimensionality ≥ `ndim - 1`, else `DimensionMismatch`; all vertices
excluding the final two (y/x) coordinates must resolve to exactly one
unique coordinate tuple, else `NonPlanarShape`; an in-bounds unique plane
is combined with the rasterized y/x pixel set, an out-of-bounds one yields
an empty index set.  The 2-D scan-line rasterization is abstracted as the
parameter `rasterize`; the claims settle only the dimensionality and
single-plane behaviour. -/
def shape_to_ts_indices (vertices : List (List ℚ)) (ndim : ℕ)
    (outOfPlaneShape : List ℕ)
    (rasterize : List (List ℚ) → List (ℤ × ℤ)) :
    Except String (List ℤ × List (ℤ × ℤ)) :=
  if (vertices.headD []).length + 1 < ndim then
    Except.error "DimensionMismatch"
  else
    match (vertices.map fun v => (v.dropLast.dropLast).map Int.floor).dedup with
    | [] => Except.ok ([], [])
    | [plane] =>
        if npInBounds plane outOfPlaneShape then
          Except.ok (plane, rasterize vertices)
        else Except.ok (plane, [])
    | _ => Except.error "NonPlanarShape"

/-- Reducer `np.sum` along a row. -/
def np_sum (l : List ℚ) : ℚ := l.foldr (· + ·) 0

/-- Reducer `np.mean` along a row. -/
def np_mean (l : List ℚ) : ℚ := np_sum l / l.length

/-- Reducer `np.min` along a row. -/
def np_min (l : List ℚ) : ℚ :=
  match l with
  | [] => 0
  | x :: xs => xs.foldl min x

/-- Reducer `np.max` along a row. -/
def np_max (l : List ℚ) : ℚ :=
  match l with
  | [] => 0
  | x :: xs => xs.foldl max x

/-- The guard value `mask.any()` computed by `extract_ROI_time_series`
before extraction, for either dimensionality branch. -/
def roiMaskAny (current_step : List ℕ) (vol : VolData)
    (labels : List (List ℕ)) (idx_shape : ℕ) : Bool :=
  match vol with
  | .d3 frames => maskAny3 (tileMask3 frames.length (labelMask labels idx_shape))
  | .d4 frames =>
      maskAny4 (List.replicate frames.length
        (stepMask3 (frames.headD []).length
          ((frames.headD []).headD []).length
          (((frames.headD []).headD []).headD []).length
          (current_step.getD 1 0) (labelMask labels idx_shape)))

/-! ## Theorems settling the claims -/

/-- C2 counterexample: the claim says the derived index is the elementwise
floor of the layer-space coordinates for every in-bounds input.  For the
identity-transform layer `markerLayer` and the in-bounds cursor position
(3.2, 7.1, 2.9, 1.0), `extract_voxel_time_series` derives the index
(3, 7, 3, 1) — `np.round` semantics — while the elementwise floor is
(3, 7, 2, 1): the code rounds, it does not floor. -/
theorem index_floor_counterexample :
    npInBounds (([3.2, 7.1, 2.9, 1.0] : List ℚ).map npRound)
        markerLayer.shape = true
    ∧ (extract_voxel_time_series [3.2, 7.1, 2.9, 1.0] markerLayer 1).1 ≠
        (markerLayer.worldToData [3.2, 7.1, 2.9, 1.0]).map Int.floor := by
  decide

/-- C2 (amended): during index derivation `extract_voxel_time_series` maps
the layer-space coordinates (all axes) to integers with `np.round`
(round half to even), not floor; only the mouse-move callback of
`LayerSelectionModel` floors the raw cursor position
(`np.floor(viewer.cursor.position).astype(int)`). -/
theorem index_mapping_rounds_not_floors :
    (∀ (cpos : List ℚ) (layer : Layer) (xscale : ℚ),
      (extract_voxel_time_series cpos layer xscale).1 =
        (layer.worldToData cpos).map npRound)
    ∧ (∀ pos : List ℚ, mouse_move_cpos pos = pos.map Int.floor) := by
  refine ⟨fun cpos layer xscale => ?_, fun pos => rfl⟩
  by_cases h : npInBounds ((layer.worldToData cpos).map npRound) layer.shape
  · simp [extract_voxel_time_series, h]
  · simp [extract_voxel_time_series, h]

/-- C6: the guard of `SelectionLayerItem.__init__` at models.py line 217
reads `if layer.ndim < layer.ndim - 1:` — it compares the selection
layer's dimensionality with itself, so it is false for every input and the
constructor never raises; with a selection layer of dimensionality 2 under
a source layer of dimensionality 5 the specification's check rejects
(2 < 5 − 1) while the code's guard does not fire and the pairing is
created. -/
theorem dim_guard_never_fires :
    selectionItemGuardRaises 2 5 = false
    ∧ specDimCheckRejects 2 5 = true
    ∧ ∀ l p : ℤ, selectionItemGuardRaises l p = false := by
  refine ⟨rfl, rfl, fun l p => ?_⟩
  simp only [selectionItemGuardRaises, decide_eq_false_iff_not]
  omega

/-- C7: the guard of `SelectionLayerItem.updateTSIndices` reads
`if ~np.array_equal(new_indices, self._indices):`.  Python's bitwise `~`
maps `True` to -2 and `False` to -1, both nonzero and hence truthy, so the
guard fires for every comparison result and the cached time series data is
re-extracted even when the recomputed indices equal the cached ones — in
particular for the cache with indices `[[1, 2]]` and data `[5]`, an update
with the identical indices `[[1, 2]]` still replaces the data with the
re-extraction result `[7]`. -/
theorem updateTSIndices_always_reextracts :
    (∀ (st : SelectionCache) (new_indices : List (List ℤ))
       (extracted : List ℚ),
      updateTSIndices st new_indices extracted =
        { indices := new_indices, ts_data := extracted })
    ∧ updateTSIndices ⟨[[1, 2]], [5]⟩ [[1, 2]] [7] = ⟨[[1, 2]], [7]⟩ := by
  refine ⟨fun st ni ex => ?_, by decide⟩
  cases h : np_array_equal ni st.indices <;>
    simp [updateTSIndices, pyTruthy, pyBitwiseNot, h]

/-- C3: an out-of-bounds selection is not an error.  A cursor position
whose rounded layer-space index fails the bounds check makes
`extract_voxel_time_series` return `None` for the series, and a ROI whose
mask selects no voxel makes `extract_ROI_time_series` fall through to
`None`; both functions are total (no exception). -/
theorem out_of_bounds_yields_empty :
    (∀ (cpos : List ℚ) (layer : Layer) (xscale : ℚ),
      npInBounds ((layer.worldToData cpos).map npRound) layer.shape = false →
      (extract_voxel_time_series cpos layer xscale).2 = none)
    ∧ (∀ (current_step : List ℕ) (vol : VolData) (labels : List (List ℕ))
         (idx_shape : ℕ) (f : List ℚ → ℚ) (xscale : ℚ),
        roiMaskAny current_step vol labels idx_shape = false →
        extract_ROI_time_series current_step vol labels idx_shape f xscale =
          none) := by
  constructor
  · intro cpos layer xscale h
    simp [extract_voxel_time_series, h]
  · intro cs vol labels idx f xscale h
    cases vol with
    | d3 frames =>
        simp only [roiMaskAny] at h
        simp [extract_ROI_time_series, h]
    | d4 frames =>
        simp [roiMaskAny] at h
        simp [extract_ROI_time_series, h]

/-- C3 witness: a cursor at world position (−0.4, 7, 3, 1) of the marker
layer maps to index (0, 7, 3, 1)?  No: npRound(−0.4) = 0 — use (−0.6, …)
mapping to −1, out of bounds, yielding `None`; and a label grid with no
pixel equal to `idx_shape + 1` yields `None` for both the 3-D and 4-D
branches. -/
theorem out_of_bounds_yields_empty_witness :
    (extract_voxel_time_series [-0.6, 7, 3, 1] markerLayer 1).2 = none
    ∧ extract_ROI_time_series [0, 0] (.d3 [[[1, 2], [3, 4]]]) [[0, 0], [0, 0]]
        0 np_sum 1 = none
    ∧ extract_ROI_time_series [0, 0, 0, 0] (.d4 [[[[1, 2], [3, 4]]]])
        [[0, 0], [0, 0]] 0 np_sum 1 = none := by
  refine ⟨out_of_bounds_yields_empty.1 [-0.6, 7, 3, 1] markerLayer 1 (by decide),
    out_of_bounds_yields_empty.2 [0, 0] (.d3 [[[1, 2], [3, 4]]])
      [[0, 0], [0, 0]] 0 np_sum 1 (by decide),
    out_of_bounds_yields_empty.2 [0, 0, 0, 0] (.d4 [[[[1, 2], [3, 4]]]])
      [[0, 0], [0, 0]] 0 np_sum 1 (by decide)⟩

/-- C1: for a layer whose transform is the identity and a cursor position
whose mapped index passes the bounds check, `extract_voxel_time_series`
returns that index together with the series `data[:, i1, ..., ik]` of
length `shape[0]`; in particular, on the (10, 10, 10, 10) marker layer the
cursor (3.2, 7.1, 2.9, 1.0) yields index (3, 7, 3, 1) and the series
`range(10)`. -/
theorem voxel_extraction_correct :
    (∀ (layer : Layer) (cpos : List ℚ) (xscale : ℚ),
      layer.worldToData = id →
      cpos.length = layer.shape.length →
      npInBounds (cpos.map npRound) layer.shape = true →
      extract_voxel_time_series cpos layer xscale =
        (cpos.map npRound,
          some (add_index_dim (voxelSeries layer (cpos.map npRound)) xscale))
        ∧ (voxelSeries layer (cpos.map npRound)).length = layer.shape.headD 0)
    ∧ extract_voxel_time_series [3.2, 7.1, 2.9, 1.0] markerLayer 1 =
        ([3, 7, 3, 1],
          some ((List.range 10).map fun i => (i : ℚ),
                (List.range 10).map fun i => (i : ℚ))) := by
  constructor
  · intro layer cpos xscale hid hlen hin
    refine ⟨?_, by simp [voxelSeries]⟩
    simp [extract_voxel_time_series, hid, hin]
  · decide

/-- C1 witness: the general bound/extraction statement applied to the
marker layer at the spec's example cursor position. -/
theorem voxel_extraction_correct_witness :
    extract_voxel_time_series [3.2, 7.1, 2.9, 1.0] markerLayer 1 =
      (([3, 7, 3, 1] : List ℤ),
        some (add_index_dim (voxelSeries markerLayer [3, 7, 3, 1]) 1))
    ∧ (voxelSeries markerLayer [3, 7, 3, 1]).length = 10 := by
  have e : ([3.2, 7.1, 2.9, 1.0] : List ℚ).map npRound =
      ([3, 7, 3, 1] : List ℤ) := by decide
  have h := voxel_extraction_correct.1 markerLayer [3.2, 7.1, 2.9, 1.0] 1
    rfl (by decide) (by decide)
  rw [e] at h
  exact h

/-- C10: `extract_voxel_time_series` always returns the rounded mapped
index; the series is `None` exactly when some zipped (index, axis-length)
pair — the time axis included — fails `0 ≤ i < max_i`; and for an
identity-transform layer two in-bounds cursor positions differing only in
the time coordinate yield the same series (the time axis is sliced in
full). -/
theorem voxel_none_iff_any_component_oob :
    (∀ (layer : Layer) (cpos : List ℚ) (xscale : ℚ),
      (extract_voxel_time_series cpos layer xscale).1 =
          (layer.worldToData cpos).map npRound
        ∧ ((extract_voxel_time_series cpos layer xscale).2 = none ↔
            ∃ p ∈ ((layer.worldToData cpos).map npRound).zip layer.shape,
              ¬(0 ≤ p.1 ∧ p.1 < (p.2 : ℤ))))
    ∧ (∀ (layer : Layer) (q q' : ℚ) (rest : List ℚ) (xscale : ℚ),
        layer.worldToData = id →
        npInBounds ((q :: rest).map npRound) layer.shape = true →
        npInBounds ((q' :: rest).map npRound) layer.shape = true →
        (extract_voxel_time_series (q :: rest) layer xscale).2 =
          (extract_voxel_time_series (q' :: rest) layer xscale).2) := by
  constructor
  · intro layer cpos xscale
    constructor
    · by_cases h : npInBounds ((layer.worldToData cpos).map npRound)
          layer.shape <;>
        simp [extract_voxel_time_series, h]
    · by_cases h : npInBounds ((layer.worldToData cpos).map npRound)
          layer.shape
      · simp only [extract_voxel_time_series, h, if_true]
        simp only [npInBounds, List.all_eq_true, Bool.and_eq_true,
          decide_eq_true_eq] at h
        simp only [Option.some_ne_none, false_iff]
        rintro ⟨p, hp, hnot⟩
        exact hnot (h p hp)
      · simp only [extract_voxel_time_series, h]
        simp only [Bool.not_eq_true] at h
        simp only [npInBounds, List.all_eq_false, Bool.and_eq_true,
          decide_eq_true_eq] at h
        simp only [if_neg, Bool.false_eq_true, not_false_eq_true, true_iff]
        obtain ⟨p, hp, hnot⟩ := h
        exact ⟨p, hp, by simpa using hnot⟩
  · intro layer q q' rest xscale hid h1 h2
    simp only [List.map_cons] at h1 h2
    simp [extract_voxel_time_series, hid, h1, h2, voxelSeries]

/-- C10 witness: on the marker layer a cursor whose time coordinate maps
to 12 (outside `[0, 10)`) yields no series even though the series never
depends on the time coordinate, and two in-bounds cursors differing only
in the time coordinate yield the same series. -/
theorem voxel_none_iff_any_component_oob_witness :
    (extract_voxel_time_series [12.5, 7.1, 2.9, 1.0] markerLayer 1).2 = none
    ∧ (extract_voxel_time_series [3.2, 7.1, 2.9, 1.0] markerLayer 1).2 =
        (extract_voxel_time_series [0.4, 7.1, 2.9, 1.0] markerLayer 1).2 := by
  refine ⟨(voxel_none_iff_any_component_oob.1 markerLayer
      [12.5, 7.1, 2.9, 1.0] 1).2.mpr ⟨(12, 10), by decide, by decide⟩,
    voxel_none_iff_any_component_oob.2 markerLayer 3.2 0.4 [7.1, 2.9, 1.0] 1
      rfl (by decide) (by decide)⟩

lemma le_foldr_max {l : List ℕ} {x : ℕ} (h : x ∈ l) : x ≤ l.foldr max 0 := by
  induction l with
  | nil => cases h
  | cons a t ih =>
      rcases List.mem_cons.mp h with rfl | h
      · exact le_max_left _ _
      · exact le_trans (ih h) (le_max_right _ _)

lemma zip_map_self {α β : Type} (f : α → β) (l : List α) :
    (l.map f).zip l = l.map fun a => (f a, a) := by
  induction l with
  | nil => rfl
  | cons a t ih => simp [ih]

/-- C8: on a nonempty mapping, `align_value_length` succeeds and returns a
mapping with the same keys in which every sequence is its original values
followed by NaN fill up to the maximum length (sequences already maximal
pass through unchanged); `{"a": [1,2,3], "b": [1,2]}` aligns to
`{"a": [1,2,3], "b": [1,2,NaN]}`; the empty mapping fails with
`EmptyInput`. -/
theorem align_value_length_pads :
    (∀ d : List (String × List ℚ), d ≠ [] →
      ∃ out, align_value_length d = Except.ok out
        ∧ out.map Prod.fst = d.map Prod.fst
        ∧ ∀ p ∈ out.zip d,
            p.1.2 = p.2.2.map some ++ List.replicate
                (((d.map fun kv => kv.2.length).foldr max 0) - p.2.2.length)
                none
            ∧ p.1.2.length = (d.map fun kv => kv.2.length).foldr max 0)
    ∧ align_value_length [("a", [1, 2, 3]), ("b", [1, 2])] =
        Except.ok [("a", [some 1, some 2, some 3]),
                   ("b", [some 1, some 2, none])]
    ∧ align_value_length [] = Except.error "EmptyInput" := by
  refine ⟨?_, rfl, rfl⟩
  intro d hd
  have hne : d.isEmpty = false := by
    cases d
    · exact absurd rfl hd
    · rfl
  refine ⟨d.map fun kv =>
      (kv.1, kv.2.map some ++ List.replicate
        (((d.map fun kv => kv.2.length).foldr max 0) - kv.2.length) none),
    ?_, ?_, ?_⟩
  · simp [align_value_length, hne]
  · simp
  · intro p hp
    rw [zip_map_self] at hp
    obtain ⟨kv, hkv, rfl⟩ := List.mem_map.mp hp
    refine ⟨rfl, ?_⟩
    have hle : kv.2.length ≤ (d.map fun kv => kv.2.length).foldr max 0 :=
      le_foldr_max (List.mem_map_of_mem _ hkv)
    simp only [List.length_append, List.length_map, List.length_replicate]
    omega

/-- C8 witness: the padding statement applied to the spec's example
mapping. -/
theorem align_value_length_pads_witness :
    ∃ out, align_value_length [("a", [(1 : ℚ), 2, 3]), ("b", [1, 2])] =
        Except.ok out
      ∧ out.map Prod.fst =
          [("a", [(1 : ℚ), 2, 3]), ("b", [1, 2])].map Prod.fst
      ∧ ∀ p ∈ out.zip [("a", [(1 : ℚ), 2, 3]), ("b", [1, 2])],
          p.1.2 = p.2.2.map some ++ List.replicate
              ((([("a", [(1 : ℚ), 2, 3]), ("b", [1, 2])].map
                  fun kv => kv.2.length).foldr max 0) - p.2.2.length) none
            ∧ p.1.2.length =
              ([("a", [(1 : ℚ), 2, 3]), ("b", [1, 2])].map
                fun kv => kv.2.length).foldr max 0 :=
  align_value_length_pads.1 [("a", [(1 : ℚ), 2, 3]), ("b", [1, 2])]
    (List.cons_ne_nil _ _)

/-- C9: `shape_to_ts_indices` fails with `NonPlanarShape` exactly when the
dimensionality precondition holds and the vertices, excluding the final
two (y/x) coordinates, resolve to two or more unique coordinate tuples;
and whenever it succeeds the returned plane is the tuple every single
vertex resolves to — no averaging or guessing. -/
theorem shape_to_ts_indices_single_plane :
    ∀ (vertices : List (List ℚ)) (ndim : ℕ) (oshape : List ℕ)
      (rasterize : List (List ℚ) → List (ℤ × ℤ)),
      (shape_to_ts_indices vertices ndim oshape rasterize =
          Except.error "NonPlanarShape" ↔
        ¬((vertices.headD []).length + 1 < ndim) ∧
          2 ≤ (vertices.map fun v =>
                (v.dropLast.dropLast).map Int.floor).dedup.length)
      ∧ (∀ plane px,
          shape_to_ts_indices vertices ndim oshape rasterize =
            Except.ok (plane, px) →
          ∀ v ∈ vertices, (v.dropLast.dropLast).map Int.floor = plane) := by
  intro vertices ndim oshape rasterize
  unfold shape_to_ts_indices
  by_cases hdim : (vertices.headD []).length + 1 < ndim
  · rw [if_pos hdim]
    constructor
    · constructor
      · intro h
        exact absurd (Except.error.inj h) (by decide)
      · intro h
        exact absurd hdim h.1
    · intro plane px h
      exact absurd h (by simp)
  · rw [if_neg hdim]
    rcases hL : (vertices.map fun v =>
        (v.dropLast.dropLast).map Int.floor).dedup with _ | ⟨p, _ | ⟨q, t⟩⟩
    · rw [hL]
      dsimp only
      have hv : vertices = [] := by
        have h0 := (List.dedup_eq_nil _).mp hL
        simpa using h0
      constructor
      · constructor
        · intro h
          exact absurd h (by simp)
        · intro h
          exact absurd h.2 (by simp)
      · intro plane px h v hv2
        rw [hv] at hv2
        cases hv2
    · rw [hL]
      dsimp only
      constructor
      · constructor
        · intro h
          by_cases hin : npInBounds p oshape
          · rw [if_pos hin] at h
            exact absurd h (by simp)
          · rw [if_neg hin] at h
            exact absurd h (by simp)
        · intro h
          exact absurd h.2 (by simp)
      · intro plane px h v hv
        have hmem : ((v.dropLast.dropLast).map Int.floor) ∈
            (vertices.map fun v =>
              (v.dropLast.dropLast).map Int.floor).dedup :=
          List.mem_dedup.mpr (List.mem_map_of_mem _ hv)
        rw [hL, List.mem_singleton] at hmem
        have hplane : p = plane := by
          by_cases hin : npInBounds p oshape
          · rw [if_pos hin] at h
            simp only [Except.ok.injEq, Prod.mk.injEq] at h
            exact h.1
          · rw [if_neg hin] at h
            simp only [Except.ok.injEq, Prod.mk.injEq] at h
            exact h.1
        rw [hmem, hplane]
    · rw [hL]
      dsimp only
      constructor
      · constructor
        · intro _
          refine ⟨hdim, ?_⟩
          simp only [List.length_cons]
          omega
        · intro _
          rfl
      · intro plane px h
        exact absurd h (by simp)

/-- C9 witness: a polygon whose vertices lie in two different planes of a
4-D volume raises `NonPlanarShape`, and on a single-plane polygon the
returned plane is each vertex's out-of-plane tuple. -/
theorem shape_to_ts_indices_single_plane_witness :
    shape_to_ts_indices [[0, 1, 1], [1, 2, 2]] 4 [5] (fun _ => []) =
        Except.error "NonPlanarShape"
    ∧ (([(0 : ℚ), 1, 1].dropLast.dropLast).map Int.floor = [0]) := by
  refine ⟨(shape_to_ts_indices_single_plane [[0, 1, 1], [1, 2, 2]] 4 [5]
      (fun _ => [])).1.mpr ⟨by decide, by decide⟩,
    (shape_to_ts_indices_single_plane [[0, 1, 1], [0, 2, 2]] 4 [5]
      (fun _ => [])).2 [0] [] rfl [0, 1, 1] (by decide)⟩

/-! ### Lemmas about masked selection and reshaping (for the ROI claim) -/

/-- Number of `true` cells of a 2-D boolean mask. -/
def trueCount2 (m : List (List Bool)) : ℕ :=
  (m.map fun row => row.count true).sum

lemma filterMap_pick_length : ∀ (row : List ℚ) (mrow : List Bool),
    row.length = mrow.length →
    ((row.zip mrow).filterMap fun q =>
      if q.2 then some q.1 else none).length = mrow.count true := by
  intro row
  induction row with
  | nil =>
      intro mrow h
      rw [List.length_nil] at h
      rw [(List.length_eq_zero.mp h.symm)]
      rfl
  | cons a rs ih =>
      intro mrow h
      cases mrow with
      | nil => simp at h
      | cons b ms =>
          rw [List.zip_cons_cons, List.filterMap_cons]
          cases b with
          | false =>
              rw [List.count_cons]
              simp only [if_neg (by simp : ¬(false = true)), beq_iff_eq,
                reduceCtorEq, if_false, Nat.add_zero]
              exact ih ms (by simpa using h)
          | true =>
              rw [List.count_cons]
              simp only [if_pos rfl, List.length_cons, beq_self_eq_true,
                if_true]
              rw [ih ms (by simpa using h)]

lemma boolSelect2_length (fr : List (List ℚ)) (m : List (List Bool))
    (h : List.Forall₂ (fun (r : List ℚ) (mr : List Bool) =>
      r.length = mr.length) fr m) :
    (boolSelect2 fr m).length = trueCount2 m := by
  induction h with
  | nil => rfl
  | cons hrow _ ih =>
      simp only [boolSelect2, List.zip_cons_cons, List.map_cons,
        List.flatten_cons, List.length_append, trueCount2, List.sum_cons]
      simp only [boolSelect2, trueCount2] at ih
      rw [filterMap_pick_length _ _ hrow, ih]

lemma filterMap_pick_false : ∀ (row : List ℚ) (mrow : List Bool),
    (∀ b ∈ mrow, b = false) →
    (row.zip mrow).filterMap (fun q => if q.2 then some q.1 else none) = [] := by
  intro row
  induction row with
  | nil => intro mrow _; rfl
  | cons a rs ih =>
      intro mrow h
      cases mrow with
      | nil => rfl
      | cons b ms =>
          have hb : b = false := h b (List.mem_cons_self _ _)
          rw [List.zip_cons_cons, List.filterMap_cons, hb]
          simp only [if_neg (by simp : ¬(false = true))]
          exact ih ms fun x hx => h x (List.mem_cons_of_mem _ hx)

lemma boolSelect2_allfalse (fr : List (List ℚ)) (m : List (List Bool))
    (h : ∀ row ∈ m, ∀ b ∈ row, b = false) : boolSelect2 fr m = [] := by
  rw [boolSelect2, List.flatten_eq_nil_iff]
  intro l hl
  obtain ⟨p, hp, rfl⟩ := List.mem_map.mp hl
  exact filterMap_pick_false p.1 p.2 (h p.2 (List.of_mem_zip hp).2)

lemma boolSelect3_allfalse (a : List (List (List ℚ)))
    (ms : List (List (List Bool)))
    (h : ∀ g ∈ ms, ∀ row ∈ g, ∀ b ∈ row, b = false) : boolSelect3 a ms = [] := by
  rw [boolSelect3, List.flatten_eq_nil_iff]
  intro l hl
  obtain ⟨p, hp, rfl⟩ := List.mem_map.mp hl
  exact boolSelect2_allfalse p.1 p.2 (h p.2 (List.of_mem_zip hp).2)

lemma zip_replicate_of_le {α β : Type} : ∀ (l : List α) (n : ℕ) (b : β),
    l.length ≤ n → l.zip (List.replicate n b) = l.map fun a => (a, b) := by
  intro l
  induction l with
  | nil => intro n b _; simp
  | cons a t ih =>
      intro n b h
      cases n with
      | zero => simp at h
      | succ m =>
          rw [List.replicate_succ, List.zip_cons_cons, List.map_cons,
            ih m b (by simpa using h)]

lemma boolSelect3_cons (x : List (List ℚ)) (a : List (List (List ℚ)))
    (mx : List (List Bool)) (ms : List (List (List Bool))) :
    boolSelect3 (x :: a) (mx :: ms) = boolSelect2 x mx ++ boolSelect3 a ms := by
  simp [boolSelect3]

lemma boolSelect3_tile (frames : List (List (List ℚ))) (m : List (List Bool)) :
    boolSelect3 frames (tileMask3 frames.length m) =
      (frames.map fun fr => boolSelect2 fr m).flatten := by
  rw [boolSelect3, tileMask3, zip_replicate_of_le _ _ _ (le_refl _),
    List.map_map]
  rfl

lemma boolSelect4_replicate (frames : List (List (List (List ℚ))))
    (raw : List (List (List Bool))) :
    boolSelect4 frames (List.replicate frames.length raw) =
      (frames.map fun fr3 => boolSelect3 fr3 raw).flatten := by
  rw [boolSelect4, zip_replicate_of_le _ _ _ (le_refl _), List.map_map]
  rfl

lemma stepMask3_succ_zero (n r c : ℕ) (m : List (List Bool)) :
    stepMask3 (n + 1) r c 0 m = m :: List.replicate n (falseGrid r c) := by
  rw [stepMask3, List.range_succ_eq_map, List.map_cons, List.map_map]
  rw [if_pos rfl]
  have htail : List.map
      ((fun i => if i = 0 then m else falseGrid r c) ∘ Nat.succ)
      (List.range n) = List.replicate n (falseGrid r c) := by
    refine List.eq_replicate_iff.mpr ⟨by simp, ?_⟩
    intro b hb
    obtain ⟨i, hi, rfl⟩ := List.mem_map.mp hb
    simp only [Function.comp_apply]
    exact if_neg (Nat.succ_ne_zero i)
  rw [htail]

lemma stepMask3_succ_succ (n r c z : ℕ) (m : List (List Bool)) :
    stepMask3 (n + 1) r c (z + 1) m =
      falseGrid r c :: stepMask3 n r c z m := by
  rw [stepMask3, stepMask3, List.range_succ_eq_map, List.map_cons,
    List.map_map]
  have h0 : (0 : ℕ) ≠ z + 1 := by omega
  rw [if_neg h0]
  have htail : List.map
      ((fun i => if i = z + 1 then m else falseGrid r c) ∘ Nat.succ)
      (List.range n) =
      List.map (fun i => if i = z then m else falseGrid r c)
        (List.range n) := by
    refine List.map_congr_left fun i _ => ?_
    simp only [Function.comp_apply]
    by_cases h : i = z
    · subst h
      rw [if_pos rfl, if_pos rfl]
    · rw [if_neg (by omega), if_neg h]
  rw [htail]

lemma boolSelect3_step : ∀ (fr3 : List (List (List ℚ))) (zlen z r c : ℕ)
    (m : List (List Bool)), fr3.length = zlen → z < zlen →
    boolSelect3 fr3 (stepMask3 zlen r c z m) =
      boolSelect2 (fr3.getD z []) m := by
  intro fr3
  induction fr3 with
  | nil =>
      intro zlen z r c m hlen hz
      subst hlen
      simp at hz
  | cons x xs ih =>
      intro zlen z r c m hlen hz
      subst hlen
      rw [List.length_cons]
      cases z with
      | zero =>
          rw [stepMask3_succ_zero, boolSelect3_cons, List.getD_cons_zero]
          have ht : boolSelect3 xs (List.replicate xs.length (falseGrid r c))
              = [] := by
            refine boolSelect3_allfalse _ _ fun g hg row hrow b hb => ?_
            rw [List.eq_of_mem_replicate hg] at hrow
            rw [List.eq_of_mem_replicate hrow] at hb
            exact List.eq_of_mem_replicate hb
          rw [ht, List.append_nil]
      | succ w =>
          rw [stepMask3_succ_succ, boolSelect3_cons, List.getD_cons_succ]
          rw [boolSelect2_allfalse x _ fun row hrow b hb => by
            rw [List.eq_of_mem_replicate hrow] at hb
            exact List.eq_of_mem_replicate hb]
          rw [List.nil_append]
          exact ih xs.length w r c m rfl (by simpa using hz)

lemma flatten_length_const (ls : List (List ℚ)) (n : ℕ)
    (h : ∀ l ∈ ls, l.length = n) : ls.flatten.length = ls.length * n := by
  induction ls with
  | nil => simp
  | cons x t ih =>
      rw [List.flatten_cons, List.length_append, List.length_cons,
        h x (List.mem_cons_self _ _),
        ih fun l hl => h l (List.mem_cons_of_mem _ hl)]
      ring

lemma reshapeRows_flatten : ∀ (ls : List (List ℚ)) (n : ℕ),
    (∀ l ∈ ls, l.length = n) → reshapeRows ls.length n ls.flatten = ls := by
  intro ls
  induction ls with
  | nil => intro n _; rfl
  | cons x t ih =>
      intro n h
      have hx : x.length = n := h x (List.mem_cons_self _ _)
      rw [reshapeRows, List.length_cons, List.range_succ_eq_map,
        List.map_cons, List.map_map]
      congr 1
      · rw [Nat.zero_mul, List.drop_zero, List.flatten_cons, ← hx,
          List.take_left]
      · have ht := ih n fun l hl => h l (List.mem_cons_of_mem _ hl)
        rw [reshapeRows] at ht
        refine Eq.trans (List.map_congr_left fun i _ => ?_) ht
        simp only [Function.comp_apply]
        rw [List.flatten_cons,
          show (i + 1) * n = x.length + i * n by rw [hx]; ring,
          List.drop_append]

/-- C4: for a non-empty mask and any reducer `f` (instantiable with the
`mode_dict` reducers `np.mean`, `np.median`, `np.sum`, `np.std`, `np.min`,
`np.max`), the extracted value at each time point `t` is `f` applied to
exactly the voxels the mask selects in frame `t`: the masked data reshaped
to `(time, n_voxels)` has the frame-`t` masked voxels as its row `t`, and
the reduction runs along axis 1 — for the 3-D branch (mask tiled across
time) and the nD branch (mask placed at the current-step plane). -/
theorem roi_reduction_along_axis1 :
    (∀ (frames : List (List (List ℚ))) (labels : List (List ℕ))
       (idx_shape : ℕ) (f : List ℚ → ℚ) (xscale : ℚ)
       (current_step : List ℕ),
      frames ≠ [] →
      (∀ fr ∈ frames, List.Forall₂
        (fun (r : List ℚ) (lr : List ℕ) => r.length = lr.length)
        fr labels) →
      maskAny2 (labelMask labels idx_shape) = true →
      extract_ROI_time_series current_step (.d3 frames) labels idx_shape
          f xscale =
        some (add_index_dim
          (frames.map fun fr =>
            f (boolSelect2 fr (labelMask labels idx_shape)))
          xscale))
    ∧ (∀ (frames : List (List (List (List ℚ)))) (labels : List (List ℕ))
         (idx_shape : ℕ) (f : List ℚ → ℚ) (xscale : ℚ)
         (current_step : List ℕ),
        frames ≠ [] →
        (∀ fr3 ∈ frames, fr3.length = (frames.headD []).length) →
        current_step.getD 1 0 < (frames.headD []).length →
        (∀ fr3 ∈ frames, List.Forall₂
          (fun (r : List ℚ) (lr : List ℕ) => r.length = lr.length)
          (fr3.getD (current_step.getD 1 0) []) labels) →
        maskAny2 (labelMask labels idx_shape) = true →
        extract_ROI_time_series current_step (.d4 frames) labels idx_shape
            f xscale =
          some (add_index_dim
            (frames.map fun fr3 =>
              f (boolSelect2 (fr3.getD (current_step.getD 1 0) [])
                  (labelMask labels idx_shape)))
            xscale)) := by
  constructor
  · intro frames labels idx f xscale cs hne hsh hmask
    have hT : 0 < frames.length := List.length_pos.mpr hne
    have hguard : maskAny3
        (tileMask3 frames.length (labelMask labels idx)) = true := by
      rw [maskAny3, List.any_eq_true]
      exact ⟨labelMask labels idx,
        List.mem_replicate.mpr ⟨by omega, rfl⟩, hmask⟩
    have hsh2 : ∀ fr ∈ frames, List.Forall₂
        (fun (r : List ℚ) (mr : List Bool) => r.length = mr.length)
        fr (labelMask labels idx) := by
      intro fr hfr
      rw [labelMask, List.forall₂_map_right_iff]
      refine (hsh fr hfr).imp ?_
      intro a b hab
      simpa using hab
    have hrowlen : ∀ l ∈ frames.map
        (fun fr => boolSelect2 fr (labelMask labels idx)),
        l.length = trueCount2 (labelMask labels idx) := by
      intro l hl
      obtain ⟨fr, hfr, rfl⟩ := List.mem_map.mp hl
      exact boolSelect2_length _ _ (hsh2 fr hfr)
    have hflat := boolSelect3_tile frames (labelMask labels idx)
    have hlenflat : ((frames.map fun fr =>
        boolSelect2 fr (labelMask labels idx)).flatten).length =
        frames.length * trueCount2 (labelMask labels idx) := by
      rw [flatten_length_const _ _ hrowlen, List.length_map]
    have hdiv : (boolSelect3 frames
        (tileMask3 frames.length (labelMask labels idx))).length /
          frames.length = trueCount2 (labelMask labels idx) := by
      rw [hflat, hlenflat]
      exact Nat.mul_div_cancel_left _ hT
    have hresh : reshapeRows frames.length
        (trueCount2 (labelMask labels idx))
        ((frames.map fun fr =>
          boolSelect2 fr (labelMask labels idx)).flatten) =
        frames.map fun fr => boolSelect2 fr (labelMask labels idx) := by
      have h0 := reshapeRows_flatten
        (frames.map fun fr => boolSelect2 fr (labelMask labels idx))
        (trueCount2 (labelMask labels idx)) hrowlen
      rwa [List.length_map] at h0
    dsimp only [extract_ROI_time_series]
    rw [hguard, if_pos rfl, hdiv, hflat, hresh, List.map_map]
    rfl
  · intro frames labels idx f xscale cs hne hZ hz hsh hmask
    have hT : 0 < frames.length := List.length_pos.mpr hne
    have hguard : maskAny4 (List.replicate frames.length
        (stepMask3 (frames.headD []).length
          ((frames.headD []).headD []).length
          (((frames.headD []).headD []).headD []).length
          (cs.getD 1 0) (labelMask labels idx))) = true := by
      rw [maskAny4, List.any_eq_true]
      refine ⟨_, List.mem_replicate.mpr ⟨by omega, rfl⟩, ?_⟩
      rw [maskAny3, List.any_eq_true]
      refine ⟨labelMask labels idx, ?_, hmask⟩
      rw [stepMask3]
      exact List.mem_map.mpr ⟨cs.getD 1 0, List.mem_range.mpr hz, if_pos rfl⟩
    have hsel : ∀ fr3 ∈ frames, boolSelect3 fr3
        (stepMask3 (frames.headD []).length
          ((frames.headD []).headD []).length
          (((frames.headD []).headD []).headD []).length
          (cs.getD 1 0) (labelMask labels idx)) =
        boolSelect2 (fr3.getD (cs.getD 1 0) []) (labelMask labels idx) :=
      fun fr3 h => boolSelect3_step fr3 (frames.headD []).length
        (cs.getD 1 0) ((frames.headD []).headD []).length
        (((frames.headD []).headD []).headD []).length
        (labelMask labels idx) (hZ fr3 h) hz
    have hsh2 : ∀ fr3 ∈ frames, List.Forall₂
        (fun (r : List ℚ) (mr : List Bool) => r.length = mr.length)
        (fr3.getD (cs.getD 1 0) []) (labelMask labels idx) := by
      intro fr3 hfr
      rw [labelMask, List.forall₂_map_right_iff]
      refine (hsh fr3 hfr).imp ?_
      intro a b hab
      simpa using hab
    have hrowlen : ∀ l ∈ frames.map (fun fr3 =>
        boolSelect2 (fr3.getD (cs.getD 1 0) []) (labelMask labels idx)),
        l.length = trueCount2 (labelMask labels idx) := by
      intro l hl
      obtain ⟨fr3, hfr, rfl⟩ := List.mem_map.mp hl
      exact boolSelect2_length _ _ (hsh2 fr3 hfr)
    have hflat : boolSelect4 frames (List.replicate frames.length
        (stepMask3 (frames.headD []).length
          ((frames.headD []).headD []).length
          (((frames.headD []).headD []).headD []).length
          (cs.getD 1 0) (labelMask labels idx))) =
        (frames.map fun fr3 =>
          boolSelect2 (fr3.getD (cs.getD 1 0) [])
            (labelMask labels idx)).flatten := by
      rw [boolSelect4_replicate]
      congr 1
      exact List.map_congr_left fun fr3 h => hsel fr3 h
    have hlenflat : ((frames.map fun fr3 =>
        boolSelect2 (fr3.getD (cs.getD 1 0) [])
          (labelMask labels idx)).flatten).length =
        frames.length * trueCount2 (labelMask labels idx) := by
      rw [flatten_length_const _ _ hrowlen, List.length_map]
    have hdiv : (boolSelect4 frames (List.replicate frames.length
        (stepMask3 (frames.headD []).length
          ((frames.headD []).headD []).length
          (((frames.headD []).headD []).headD []).length
          (cs.getD 1 0) (labelMask labels idx)))).length /
          frames.length = trueCount2 (labelMask labels idx) := by
      rw [hflat, hlenflat]
      exact Nat.mul_div_cancel_left _ hT
    have hresh : reshapeRows frames.length
        (trueCount2 (labelMask labels idx))
        ((frames.map fun fr3 =>
          boolSelect2 (fr3.getD (cs.getD 1 0) [])
            (labelMask labels idx)).flatten) =
        frames.map fun fr3 =>
          boolSelect2 (fr3.getD (cs.getD 1 0) [])
            (labelMask labels idx) := by
      have h0 := reshapeRows_flatten
        (frames.map fun fr3 =>
          boolSelect2 (fr3.getD (cs.getD 1 0) []) (labelMask labels idx))
        (trueCount2 (labelMask labels idx)) hrowlen
      rwa [List.length_map] at h0
    dsimp only [extract_ROI_time_series]
    rw [hguard, if_pos rfl, hdiv, hflat, hresh, List.map_map]
    rfl

/-- C4 witness: the reduction statement applied with the `Sum` reducer to a
2-frame volume and a diagonal mask, for both branches. -/
theorem roi_reduction_along_axis1_witness :
    extract_ROI_time_series [0, 0] (.d3 [[[1, 2], [3, 4]], [[5, 6], [7, 8]]])
        [[1, 0], [0, 1]] 0 np_sum 1 = some ([0, 1], [5, 13])
    ∧ extract_ROI_time_series [0, 0, 0, 0]
        (.d4 [[[[1, 2], [3, 4]]], [[[5, 6], [7, 8]]]])
        [[1, 0], [0, 1]] 0 np_sum 1 = some ([0, 1], [5, 13]) := by
  constructor
  · have h := roi_reduction_along_axis1.1
      [[[1, 2], [3, 4]], [[5, 6], [7, 8]]] [[1, 0], [0, 1]] 0 np_sum 1
      [0, 0] (by decide)
      (by
        intro fr hfr
        rcases List.mem_cons.mp hfr with rfl | hfr
        · exact .cons rfl (.cons rfl .nil)
        rcases List.mem_cons.mp hfr with rfl | hfr
        · exact .cons rfl (.cons rfl .nil)
        · cases hfr)
      (by decide)
    exact h.trans (by decide)
  · have h := roi_reduction_along_axis1.2
      [[[[1, 2], [3, 4]]], [[[5, 6], [7, 8]]]] [[1, 0], [0, 1]] 0 np_sum 1
      [0, 0, 0, 0] (by decide)
      (by
        intro fr3 hfr
        rcases List.mem_cons.mp hfr with rfl | hfr
        · rfl
        rcases List.mem_cons.mp hfr with rfl | hfr
        · rfl
        · cases hfr)
      (by decide)
      (by
        intro fr3 hfr
        rcases List.mem_cons.mp hfr with rfl | hfr
        · exact .cons rfl (.cons rfl .nil)
        rcases List.mem_cons.mp hfr with rfl | hfr
        · exact .cons rfl (.cons rfl .nil)
        · cases hfr)
      (by decide)
    exact h.trans (by decide)

/-- C5: the aggregated output holds an entry under the key built from a
source name, selection name and series index exactly when either the key
is a LivePlot key of a present LivePlot row, or some source row with that
name is checked and holds a checked child with that name and at least
`k + 1` cached series.  In particular an unchecked source contributes none
of its children's series regardless of their own check state, and an
unchecked selection child is excluded on its own. -/
theorem tsData_entry_iff_checked :
    ∀ (rows : List ModelRow) (sName cName : String) (k : ℕ),
      (∃ ts, ((⟨sName, cName, k⟩ : TSKey), ts) ∈ tsData rows) ↔
        ((sName = "LivePlot" ∧ cName = "layer" ∧
            ∃ live, ModelRow.livePlot live ∈ rows ∧ k < live.length)
          ∨ ∃ children, ModelRow.source sName true children ∈ rows ∧
              ∃ c ∈ children, c.name = cName ∧ c.checked = true ∧
                k < c.ts_data.length) := by
  intro rows s c k
  constructor
  · rintro ⟨ts, hts⟩
    rw [tsData, List.mem_flatMap] at hts
    obtain ⟨row, hrow, hmem⟩ := hts
    cases row with
    | livePlot live =>
        left
        dsimp only at hmem
        simp only [List.mem_map] at hmem
        obtain ⟨⟨i, x⟩, hp, heq⟩ := hmem
        simp only [Prod.mk.injEq, TSKey.mk.injEq] at heq
        obtain ⟨⟨hs, hc, hk⟩, hx⟩ := heq
        refine ⟨hs.symm, hc.symm, live, hrow, ?_⟩
        have h2 := List.mk_mem_enum_iff_getElem?.mp hp
        rw [hk] at h2
        obtain ⟨hb, _⟩ := List.getElem?_eq_some.mp h2
        exact hb
    | source n ck children =>
        right
        dsimp only at hmem
        by_cases hck : (ck && !children.isEmpty) = true
        · rw [if_pos hck] at hmem
          rw [List.mem_flatMap] at hmem
          obtain ⟨ch, hch, hmem2⟩ := hmem
          by_cases hcc : ch.checked = true
          · rw [if_pos hcc] at hmem2
            rw [childEntries] at hmem2
            simp only [List.mem_map] at hmem2
            obtain ⟨⟨i, x⟩, hp, heq⟩ := hmem2
            simp only [Prod.mk.injEq, TSKey.mk.injEq] at heq
            obtain ⟨⟨hs, hc, hk⟩, hx⟩ := heq
            have hckt : ck = true := by
              simp only [Bool.and_eq_true] at hck
              exact hck.1
            rw [hs, hckt] at hrow
            refine ⟨children, hrow, ch, hch, hc, hcc, ?_⟩
            have h2 := List.mk_mem_enum_iff_getElem?.mp hp
            rw [hk] at h2
            obtain ⟨hb, _⟩ := List.getElem?_eq_some.mp h2
            exact hb
          · rw [if_neg hcc] at hmem2
            cases hmem2
        · rw [if_neg hck] at hmem
          cases hmem
  · rintro (⟨hs, hc, live, hrow, hk⟩ | ⟨children, hrow, ch, hch, hname, hcc, hk⟩)
    · subst hs
      subst hc
      refine ⟨live[k], ?_⟩
      rw [tsData, List.mem_flatMap]
      refine ⟨ModelRow.livePlot live, hrow, ?_⟩
      dsimp only
      simp only [List.mem_map]
      exact ⟨(k, live[k]),
        List.mk_mem_enum_iff_getElem?.mpr
          (List.getElem?_eq_some.mpr ⟨hk, rfl⟩), rfl⟩
    · refine ⟨ch.ts_data[k], ?_⟩
      rw [tsData, List.mem_flatMap]
      refine ⟨ModelRow.source s true children, hrow, ?_⟩
      dsimp only
      have hne : children.isEmpty = false := by
        cases children
        · cases hch
        · rfl
      rw [if_pos (show (true && !children.isEmpty) = true by
        rw [hne]; rfl)]
      rw [List.mem_flatMap]
      refine ⟨ch, hch, ?_⟩
      rw [if_pos hcc, childEntries]
      simp only [List.mem_map]
      refine ⟨(k, ch.ts_data[k]),
        List.mk_mem_enum_iff_getElem?.mpr
          (List.getElem?_eq_some.mpr ⟨hk, rfl⟩), ?_⟩
      rw [hname]

end NTSP
